import Mathlib

/-!
Verification of the MultimodalNavigationIsaacSim command/state bridge and
navigation agent, shallowly embedded in Lean 4.

Times, speeds and durations (Python floats) are modelled as rationals;
the claims under scrutiny involve no floating-point rounding.
-/

deriving instance DecidableEq for Except

namespace SpotNav

/-! ## Command Bridge (src/src/bridge.py, class SimBridge)

The bridge's command fields: `_base_command` is the `(vx, vy, yaw_rate)`
tuple, `_command_until_walltime` the wall-clock expiry.  `time.time()` is
passed in as an explicit `now` parameter. -/

structure SimBridge where
  baseCommand : ℚ × ℚ × ℚ := (0, 0, 0)
  commandUntil : ℚ := 0
deriving DecidableEq

/-- `SimBridge.set_base_command`: clamps the duration to `max(0, d)`,
computes `until = time.time() + duration_s`, then stores the tuple and the
expiry (under the lock, modelled here as a single atomic state update). -/
def setBaseCommand (now : ℚ) (b : SimBridge) (vx vy yawRate durationS : ℚ) :
    SimBridge :=
  let d := max 0 durationS
  let untilT := now + d
  { b with baseCommand := (vx, vy, yawRate), commandUntil := untilT }

/-- `SimBridge.get_base_command`: `now = time.time()`; returns `(0,0,0)`
when `now > self._command_until_walltime`, else the stored tuple.  A pure
read: the bridge state is not modified. -/
def getBaseCommand (now : ℚ) (b : SimBridge) : ℚ × ℚ × ℚ :=
  if b.commandUntil < now then (0, 0, 0) else b.baseCommand

/-! ## Direction Translator (src/src/bridge.py, direction_to_command) -/

/-- Python `str.lower()` (ASCII case mapping, the range used here). -/
def pyLower (s : String) : String :=
  ⟨s.data.map Char.toLower⟩

/-- Python `str.strip()`: whitespace removed from both ends. -/
def pyStrip (s : String) : String :=
  ⟨((s.data.dropWhile Char.isWhitespace).reverse.dropWhile
      Char.isWhitespace).reverse⟩

/-- The `ValueError` message raised by `direction_to_command` for an
unknown token (the spec's `InvalidDirection`). -/
def invalidDirectionMsg : String :=
  "Unknown direction. Use one of: forward/back/left/right/turn_left/turn_right/stop"

/-- `direction_to_command(direction, speed, yaw_rate)`:
`d = (direction or "").strip().lower()`, then a fixed synonym table;
an unknown token raises `ValueError` (the spec's `InvalidDirection`),
modelled as `Except.error`. -/
def directionToCommand (direction : String) (speed yawRate : ℚ) :
    Except String (ℚ × ℚ × ℚ) :=
  let d := pyLower (pyStrip direction)
  if d = "forward" ∨ d = "fwd" ∨ d = "front" then
    .ok (speed, 0, 0)
  else if d = "back" ∨ d = "backward" ∨ d = "reverse" then
    .ok (-speed, 0, 0)
  else if d = "left" ∨ d = "strafe_left" then
    .ok (0, speed, 0)
  else if d = "right" ∨ d = "strafe_right" then
    .ok (0, -speed, 0)
  else if d = "turn_left" ∨ d = "yaw_left" ∨ d = "rotate_left" then
    .ok (0, 0, yawRate)
  else if d = "turn_right" ∨ d = "yaw_right" ∨ d = "rotate_right" then
    .ok (0, 0, -yawRate)
  else if d = "stop" ∨ d = "halt" then
    .ok (0, 0, 0)
  else
    .error invalidDirectionMsg

/-- The full synonym table of `direction_to_command`. -/
def knownDirectionTokens : List String :=
  ["forward", "fwd", "front", "back", "backward", "reverse",
   "left", "strafe_left", "right", "strafe_right",
   "turn_left", "yaw_left", "rotate_left",
   "turn_right", "yaw_right", "rotate_right", "stop", "halt"]

/-! ## MCP tool `giveMoveCommand` (src/src/mcp_server.py)

Translates the direction, stores the command in the bridge, and returns
`{"ok": True, "applied": {vx, vy, yaw_rate, duration_s: float(length)}}`.
The reported `duration_s` is the raw `length` argument, not the clamped
duration the bridge stores. -/

structure MoveApplied where
  vx : ℚ
  vy : ℚ
  yawRate : ℚ
  durationS : ℚ
deriving DecidableEq

def giveMoveCommand (now : ℚ) (b : SimBridge) (direction : String)
    (length speed yawRate : ℚ) : Except String (MoveApplied × SimBridge) :=
  match directionToCommand direction speed yawRate with
  | .error e => .error e
  | .ok (vx, vy, wz) =>
      .ok ({ vx := vx, vy := vy, yawRate := wz, durationS := length },
           setBaseCommand now b vx vy wz length)

/-! ## Navigation agent (src/agent.py, navigate_robot)

The decision loop: each iteration first executes `step += 1`, then fetches
the camera frame and the vision classification (failures back off and
`continue`), then matches the uppercased first line of the response in
fixed order FORWARD, SLOW, OBSTACLE_LEFT, OBSTACLE_RIGHT, BLOCKED (Python
`in`: substring containment) with a cautious-forward fallback, and finally
sends the chosen movement over `giveMoveCommand`. -/

/-- Does the character list start with the pattern? -/
def charsStartWith : List Char → List Char → Bool
  | _, [] => true
  | [], _ :: _ => false
  | c :: cs, p :: ps => c == p && charsStartWith cs ps

/-- Does the character list contain the pattern as a contiguous run? -/
def charsContain : List Char → List Char → Bool
  | [], pat => pat.isEmpty
  | c :: rest, pat => charsStartWith (c :: rest) pat || charsContain rest pat

/-- Python `pat in s`: substring containment. -/
def strContainsSub (s pat : String) : Bool :=
  charsContain s.data pat.data

/-- Python `str.upper()` (ASCII case mapping, the range used here). -/
def pyUpper (s : String) : String :=
  ⟨s.data.map Char.toUpper⟩

/-- `analysis_upper.split('\n')[0]`: element 0 of a split at newlines is
exactly the prefix of the string before the first `'\n'` (the whole string
when no newline occurs). -/
def primaryCommand (analysisUpper : String) : String :=
  ⟨analysisUpper.data.takeWhile (fun c => !(c == '\n'))⟩

/-- `NavigationLoopState`: `step`, `consecutive_stops` and
`distance_moved` of `navigate_robot`. -/
structure NavState where
  step : Nat
  consecutiveStops : Nat
  distanceMoved : ℚ
deriving DecidableEq

/-- A tool call the agent issues in one iteration: `giveMoveCommand` with
`(direction, speed, length)` (always with `yaw_rate = 0.8`), or the `stop`
tool. -/
inductive ToolCall
  | move (direction : String) (speed duration : ℚ)
  | stop
deriving DecidableEq

/-- The externally determined outcome of one iteration's collaborator
calls: the camera step failed (no frame / camera error / exception), the
vision step failed (error / empty response / exception), or the vision
model produced a response text. -/
inductive IterInput
  | camFail
  | visionFail
  | ok (response : String)
deriving DecidableEq

/-- One iteration of the `while step < max_steps` body of
`navigate_robot`.  Returns the new loop state, the tool calls issued, and
whether the iteration executed `break`.  `step += 1` happens on entry,
before any collaborator call; a camera or vision failure sleeps and
`continue`s, issuing nothing.  Distance bookkeeping (only for direction
`"forward"`) adds `applied["duration_s"] * speed` where the server echoes
`duration_s` = the requested duration (see `giveMoveCommand`). -/
def navIter (st : NavState) (inp : IterInput) : NavState × List ToolCall × Bool :=
  match inp with
  | .camFail => ({ st with step := st.step + 1 }, [], false)
  | .visionFail => ({ st with step := st.step + 1 }, [], false)
  | .ok response =>
    if strContainsSub (primaryCommand (pyUpper response)) "FORWARD" then
      ({ st with step := st.step + 1, consecutiveStops := 0,
                 distanceMoved := st.distanceMoved + 2 * 1 },
       [.move "forward" 1 2], false)
    else if strContainsSub (primaryCommand (pyUpper response)) "SLOW" then
      ({ st with step := st.step + 1, consecutiveStops := 0,
                 distanceMoved := st.distanceMoved + 1 * 1 },
       [.move "forward" 1 1], false)
    else if strContainsSub (primaryCommand (pyUpper response)) "OBSTACLE_LEFT" then
      ({ st with step := st.step + 1, consecutiveStops := 0 },
       [.move "left" 1 1], false)
    else if strContainsSub (primaryCommand (pyUpper response)) "OBSTACLE_RIGHT" then
      ({ st with step := st.step + 1, consecutiveStops := 0 },
       [.move "right" 1 1], false)
    else if strContainsSub (primaryCommand (pyUpper response)) "BLOCKED" then
      if st.consecutiveStops + 1 ≤ 2 then
        ({ st with step := st.step + 1,
                   consecutiveStops := st.consecutiveStops + 1 },
         [.move "turn_left" 1 1], false)
      else if st.consecutiveStops + 1 ≤ 4 then
        ({ st with step := st.step + 1,
                   consecutiveStops := st.consecutiveStops + 1 },
         [.move "turn_right" 1 1], false)
      else
        ({ st with step := st.step + 1,
                   consecutiveStops := st.consecutiveStops + 1 },
         [.stop], true)
    else
      ({ st with step := st.step + 1, consecutiveStops := 0,
                 distanceMoved := st.distanceMoved + 1 * 1 },
       [.move "forward" 1 1], false)

/-- The `while step < max_steps` loop, driven by an environment giving
each iteration's collaborator outcome (indexed by the `step` value at the
loop head).  `fuel` is the number of iterations still allowed by the guard
(`max_steps - step`); each iteration increments `step` by exactly one, so
the guard is faithfully represented. -/
def navLoop (env : Nat → IterInput) : Nat → NavState → NavState × List ToolCall
  | 0, st => (st, [])
  | fuel + 1, st =>
    let r := navIter st (env st.step)
    if r.2.2 then (r.1, r.2.1)
    else ((navLoop env fuel r.1).1, r.2.1 ++ (navLoop env fuel r.1).2)

/-- `navigate_robot` after connecting: `step = 0`, `max_steps` as
configured, `distance_moved = 0.0`, `consecutive_stops = 0`. -/
def navigateRobot (maxSteps : Nat) (env : Nat → IterInput) :
    NavState × List ToolCall :=
  navLoop env maxSteps ⟨0, 0, 0⟩

/-- The values printed after the loop exits (both on `break` and on the
guard turning false): total steps and total forward distance. -/
def finalReport (st : NavState) : Nat × ℚ :=
  (st.step, st.distanceMoved)

end SpotNav

namespace SpotNav

/-- Every iteration advances `step` by exactly one, incl. failed ones. -/
theorem navIter_step_succ (st : NavState) (inp : IterInput) :
    (navIter st inp).1.step = st.step + 1 := by
  cases inp with
  | camFail => rfl
  | visionFail => rfl
  | ok resp =>
    simp only [navIter]
    split_ifs <;> rfl

/-- An iteration `break`s only from the BLOCKED-escalation-exhausted
branch: it then issues exactly the `stop` tool call and leaves
`consecutive_stops ≥ 5`. -/
theorem navIter_break_spec (st : NavState) (inp : IterInput)
    (h : (navIter st inp).2.2 = true) :
    (navIter st inp).2.1 = [.stop] ∧
    5 ≤ (navIter st inp).1.consecutiveStops := by
  cases inp with
  | camFail => simp [navIter] at h
  | visionFail => simp [navIter] at h
  | ok resp =>
    simp only [navIter] at h ⊢
    split_ifs at h ⊢ with h1 h2 h3 h4 h5 h6 h7
    exact ⟨rfl, show 5 ≤ st.consecutiveStops + 1 by omega⟩

/-- A non-`break` iteration never issues the `stop` tool call. -/
theorem navIter_no_break_no_stop (st : NavState) (inp : IterInput)
    (h : (navIter st inp).2.2 = false) :
    ToolCall.stop ∉ (navIter st inp).2.1 := by
  cases inp with
  | camFail => exact List.not_mem_nil _
  | visionFail => exact List.not_mem_nil _
  | ok resp =>
    simp only [navIter] at h ⊢
    split_ifs at h ⊢ <;> simp_all

/-- Unfolding equation for `navLoop` at positive fuel. -/
theorem navLoop_succ (env : Nat → IterInput) (n : Nat) (st : NavState) :
    navLoop env (n + 1) st =
      if (navIter st (env st.step)).2.2 then
        ((navIter st (env st.step)).1, (navIter st (env st.step)).2.1)
      else ((navLoop env n (navIter st (env st.step)).1).1,
            (navIter st (env st.step)).2.1 ++
              (navLoop env n (navIter st (env st.step)).1).2) := rfl

/-- The two exit paths of `navLoop`: either the fuel (the step budget) is
exhausted — `step` grew by exactly `fuel` and no `stop` was ever issued —
or the loop `break`s with `consecutive_stops ≥ 5` and the final issued
tool call is `stop`. -/
theorem navLoop_paths (env : Nat → IterInput) :
    ∀ (fuel : Nat) (st : NavState),
      ((navLoop env fuel st).1.step = st.step + fuel ∧
        ToolCall.stop ∉ (navLoop env fuel st).2) ∨
      ((navLoop env fuel st).2.getLast? = some .stop ∧
        5 ≤ (navLoop env fuel st).1.consecutiveStops) := by
  intro fuel
  induction fuel with
  | zero => intro st; left; simp [navLoop]
  | succ n ih =>
    intro st
    rw [navLoop_succ]
    cases hb : (navIter st (env st.step)).2.2 with
    | true =>
      rw [if_pos rfl]
      right
      have hspec := navIter_break_spec st (env st.step) hb
      exact ⟨by rw [show ((navIter st (env st.step)).1,
          (navIter st (env st.step)).2.1).2 = (navIter st (env st.step)).2.1
          from rfl, hspec.1]; rfl,
        hspec.2⟩
    | false =>
      rw [if_neg (by simp)]
      have hs := navIter_step_succ st (env st.step)
      have hns := navIter_no_break_no_stop st (env st.step) hb
      rcases ih (navIter st (env st.step)).1 with ⟨ih1, ih2⟩ | ⟨ih1, ih2⟩
      · left
        refine ⟨?_, ?_⟩
        · show (navLoop env n (navIter st (env st.step)).1).1.step =
            st.step + (n + 1)
          rw [ih1, hs]
          omega
        · show ToolCall.stop ∉ (navIter st (env st.step)).2.1 ++
            (navLoop env n (navIter st (env st.step)).1).2
          simp only [List.mem_append, not_or]
          exact ⟨hns, ih2⟩
      · right
        have hne : (navLoop env n (navIter st (env st.step)).1).2 ≠ [] := by
          intro hnil
          rw [hnil] at ih1
          simp at ih1
        refine ⟨?_, ih2⟩
        show ((navIter st (env st.step)).2.1 ++
          (navLoop env n (navIter st (env st.step)).1).2).getLast? =
            some ToolCall.stop
        rw [List.getLast?_append_of_ne_nil _ hne]
        exact ih1

/-! ## Python aliasing model for `update_state` / `get_state`
(src/src/bridge.py)

`update_state` stores `dict(state)` and `get_state` returns
`dict(self._last_state)`: both make a NEW top-level dict object whose
values are the same references — nested dict objects (the published
snapshot's `spot` pose, `base_command`, `camera` summary, see
src/src/simulation.py) are shared, not copied.  We model Python dict
objects in an explicit heap: an address-indexed store of dictionaries
whose values are scalars or references to other dict objects. -/

inductive PyVal
  | num (q : ℚ)
  | str (s : String)
  | ref (addr : Nat)
deriving DecidableEq

/-- A Python dict object's own key/value pairs. -/
abbrev PyDict := List (String × PyVal)

/-- The object heap: which dict object lives at which address. -/
abbrev Heap := List (Nat × PyDict)

/-- The dict object at address `a` (empty if unallocated). -/
def heapGet : Heap → Nat → PyDict
  | [], _ => []
  | (b, d) :: rest, a => if b = a then d else heapGet rest a

/-- Store dict `d` at address `a`. -/
def heapSet : Heap → Nat → PyDict → Heap
  | [], a, d => [(a, d)]
  | (b, e) :: rest, a, d =>
    if b = a then (a, d) :: rest else (b, e) :: heapSet rest a d

/-- An address not yet allocated in the heap. -/
def freshAddr (h : Heap) : Nat :=
  (h.map Prod.fst).foldr max 0 + 1

/-- Python `d[k]` on a dict object's pairs. -/
def dictLookup : PyDict → String → Option PyVal
  | [], _ => none
  | (k', v) :: rest, k => if k' = k then some v else dictLookup rest k

/-- Python `d[k] = v` on a dict object's pairs. -/
def dictAssign (d : PyDict) (k : String) (v : PyVal) : PyDict :=
  (k, v) :: d.filter (fun p => !(p.1 == k))

/-- In-place mutation `obj[k] = v` of the dict object at address `a`. -/
def setKey (h : Heap) (a : Nat) (k : String) (v : PyVal) : Heap :=
  heapSet h a (dictAssign (heapGet h a) k v)

/-- The `_last_state` reference held by the bridge. -/
structure BridgeStateRef where
  lastState : Nat
deriving DecidableEq

/-- `SimBridge.update_state(state)`: `self._last_state = dict(state)` — a
fresh top-level dict object holding the same key/value pairs (nested
references shared). -/
def updateState (h : Heap) (br : BridgeStateRef) (stateAddr : Nat) :
    Heap × BridgeStateRef :=
  let a := freshAddr h
  (heapSet h a (heapGet h stateAddr), { br with lastState := a })

/-- `SimBridge.get_state()`: `return dict(self._last_state)` — allocates a
fresh top-level dict object holding the same key/value pairs as the stored
snapshot (nested references shared) and returns its address. -/
def getState (h : Heap) (br : BridgeStateRef) : Heap × Nat :=
  let a := freshAddr h
  (heapSet h a (heapGet h br.lastState), a)

/-- Reading `snapshot[k1][k2]` through one level of nesting. -/
def readNested (h : Heap) (a : Nat) (k1 k2 : String) : Option PyVal :=
  match dictLookup (heapGet h a) k1 with
  | some (.ref b) => dictLookup (heapGet h b) k2
  | _ => none

end SpotNav

namespace SpotNav

theorem mem_le_foldr_max (l : List Nat) (a : Nat) (ha : a ∈ l) :
    a ≤ l.foldr max 0 := by
  induction l with
  | nil => cases ha
  | cons b t ih =>
    rcases List.mem_cons.mp ha with rfl | ha
    · exact le_max_left _ _
    · exact le_trans (ih ha) (le_max_right _ _)

/-- A fresh address is not an allocated one. -/
theorem freshAddr_not_mem (h : Heap) (a : Nat) (ha : a ∈ h.map Prod.fst) :
    a ≠ freshAddr h := by
  have := mem_le_foldr_max (h.map Prod.fst) a ha
  unfold freshAddr
  omega

theorem heapGet_heapSet_self (h : Heap) (a : Nat) (d : PyDict) :
    heapGet (heapSet h a d) a = d := by
  induction h with
  | nil => simp [heapSet, heapGet]
  | cons p t ih =>
    obtain ⟨b, e⟩ := p
    by_cases hb : b = a
    · subst hb
      simp [heapSet, heapGet]
    · simp [heapSet, heapGet, hb, ih]

theorem heapGet_heapSet_ne (h : Heap) (a b : Nat) (d : PyDict)
    (hne : a ≠ b) : heapGet (heapSet h a d) b = heapGet h b := by
  induction h with
  | nil => simp [heapSet, heapGet, hne]
  | cons p t ih =>
    obtain ⟨c, e⟩ := p
    by_cases hc : c = a
    · subst hc
      simp only [heapSet, if_pos rfl, heapGet, hne]
      simp [fun hcb : c = b => hne (hcb ▸ rfl)]
    · by_cases hcb : c = b
      · subst hcb
        simp [heapSet, hc, heapGet]
      · simp [heapSet, hc, heapGet, hcb, ih]

/-- `get_state` allocates at the fresh address and copies the stored
top-level pairs there. -/
theorem getState_spec (h : Heap) (br : BridgeStateRef) :
    getState h br =
      (heapSet h (freshAddr h) (heapGet h br.lastState), freshAddr h) := rfl

end SpotNav

namespace SpotNav

/-! ## Interleaving model of the SimBridge lock (src/src/bridge.py)

`set_base_command` and `get_base_command` run their bodies under
`self._lock`.  To check last-write-wins and the absence of torn reads we
model each call's individual shared-memory operations as separate atomic
steps of an interleaved small-step semantics with the lock explicit.

A writer performing `set_base_command(vx, vy, yaw_rate, duration_s)`
computes `until = time.time() + max(0, duration_s)` before entering the
lock (modelled by the precomputed `untilT` in its argument record), then:
acquire; assign the `_base_command` tuple (a single reference assignment);
assign `_command_until_walltime`; release.

The reader performing `get_base_command()` computes `now = time.time()`
before the lock, then: acquire; load `_command_until_walltime`; compare
and either take `(0,0,0)` or load `_base_command`; release (the `return`
exits the `with` block). -/

structure WriterArg where
  vx : ℚ
  vy : ℚ
  yaw : ℚ
  untilT : ℚ
deriving DecidableEq

/-- The tuple a writer assigns to `_base_command`. -/
def WriterArg.cmd (w : WriterArg) : ℚ × ℚ × ℚ := (w.vx, w.vy, w.yaw)

inductive WPhase
  | idle
  | acquired
  | wroteCmd
  | wroteUntil
  | finished
deriving DecidableEq

/-- Is the writer inside its critical section? -/
def WPhase.inCS : WPhase → Bool
  | .acquired | .wroteCmd | .wroteUntil => true
  | _ => false

/-- Has the writer already performed its `_base_command` assignment? -/
def WPhase.wrote : WPhase → Bool
  | .wroteCmd | .wroteUntil | .finished => true
  | _ => false

inductive RPhase
  | idle
  | acquired
  | gotUntil (u : ℚ)
  | gotResult (r : ℚ × ℚ × ℚ)
  | finished (r : ℚ × ℚ × ℚ)
deriving DecidableEq

/-- Is the reader inside its critical section? -/
def RPhase.inCS : RPhase → Bool
  | .acquired | .gotUntil _ | .gotResult _ => true
  | _ => false

/-- The shared fields of the bridge.  `lockOwner`: `none` = free,
`some none` = the reader, `some (some i)` = writer `i`.  `writeLog` is a
ghost trace of writers in the order their tuple assignments happened. -/
structure Shared where
  lockOwner : Option (Option Nat)
  cmd : ℚ × ℚ × ℚ
  untilT : ℚ
  writeLog : List Nat
deriving DecidableEq

structure Config where
  sh : Shared
  ws : List WPhase
  rd : RPhase
deriving DecidableEq

/-- Fresh bridge (`_base_command = (0,0,0)`, `_command_until_walltime = 0`,
lock free), all threads at their entry points. -/
def initConfig (numWriters : Nat) : Config :=
  ⟨⟨none, (0, 0, 0), 0, []⟩, List.replicate numWriters .idle, .idle⟩

/-- One atomic shared-memory step of some thread.  Lock acquisition
requires the lock to be free; every other step of a thread merely requires
that thread to be at the corresponding program point (mutual exclusion is
a consequence, proved below, not an assumption). -/
inductive BStep (args : List WriterArg) (now : ℚ) : Config → Config → Prop
  | wAcquire (c : Config) (i : Nat) :
      c.ws[i]? = some .idle →
      c.sh.lockOwner = none →
      BStep args now c
        ⟨{ c.sh with lockOwner := some (some i) }, c.ws.set i .acquired, c.rd⟩
  | wWriteCmd (c : Config) (i : Nat) (a : WriterArg) :
      c.ws[i]? = some .acquired →
      args[i]? = some a →
      BStep args now c
        ⟨{ c.sh with cmd := a.cmd, writeLog := c.sh.writeLog ++ [i] },
         c.ws.set i .wroteCmd, c.rd⟩
  | wWriteUntil (c : Config) (i : Nat) (a : WriterArg) :
      c.ws[i]? = some .wroteCmd →
      args[i]? = some a →
      BStep args now c
        ⟨{ c.sh with untilT := a.untilT }, c.ws.set i .wroteUntil, c.rd⟩
  | wRelease (c : Config) (i : Nat) :
      c.ws[i]? = some .wroteUntil →
      BStep args now c
        ⟨{ c.sh with lockOwner := none }, c.ws.set i .finished, c.rd⟩
  | rAcquire (c : Config) :
      c.rd = .idle →
      c.sh.lockOwner = none →
      BStep args now c
        ⟨{ c.sh with lockOwner := some none }, c.ws, .acquired⟩
  | rLoadUntil (c : Config) :
      c.rd = .acquired →
      BStep args now c ⟨c.sh, c.ws, .gotUntil c.sh.untilT⟩
  | rLoadCmd (c : Config) (u : ℚ) :
      c.rd = .gotUntil u →
      BStep args now c
        ⟨c.sh, c.ws, .gotResult (if u < now then (0, 0, 0) else c.sh.cmd)⟩
  | rRelease (c : Config) (r : ℚ × ℚ × ℚ) :
      c.rd = .gotResult r →
      BStep args now c
        ⟨{ c.sh with lockOwner := none }, c.ws, .finished r⟩

/-- Configurations reachable from the fresh bridge by any interleaving. -/
def Reach (args : List WriterArg) (now : ℚ) (c : Config) : Prop :=
  Relation.ReflTransGen (BStep args now) (initConfig args.length) c

/-- The inductive invariant of the interleaving semantics. -/
structure BridgeInv (args : List WriterArg) (c : Config) : Prop where
  wMutex : ∀ i ph, c.ws[i]? = some ph → ph.inCS = true →
    c.sh.lockOwner = some (some i)
  rMutex : c.rd.inCS = true → c.sh.lockOwner = some none
  cmdLog : (c.sh.writeLog = [] ∧ c.sh.cmd = (0, 0, 0)) ∨
    (∃ (i : Nat) (a : WriterArg), c.sh.writeLog.getLast? = some i ∧
      args[i]? = some a ∧ c.sh.cmd = a.cmd)
  pairOK : (∀ i : Nat, c.ws[i]? ≠ some WPhase.wroteCmd) →
    ((c.sh.writeLog = [] ∧ c.sh.cmd = (0, 0, 0) ∧ c.sh.untilT = 0) ∨
     (∃ (i : Nat) (a : WriterArg), c.sh.writeLog.getLast? = some i ∧
        args[i]? = some a ∧ c.sh.cmd = a.cmd ∧ c.sh.untilT = a.untilT))
  midWrite : ∀ i : Nat, c.ws[i]? = some WPhase.wroteCmd →
    c.sh.writeLog.getLast? = some i
  logMem : ∀ (i : Nat) (ph : WPhase), c.ws[i]? = some ph → ph.wrote = true →
    i ∈ c.sh.writeLog
  resultOK : ∀ r : ℚ × ℚ × ℚ, (c.rd = .gotResult r ∨ c.rd = .finished r) →
    r = (0, 0, 0) ∨ ∃ (i : Nat) (a : WriterArg), args[i]? = some a ∧ r = a.cmd

/-- The invariant holds initially. -/
theorem initInv (args : List WriterArg) : BridgeInv args (initConfig args.length) := by
  constructor
  · intro i ph hph hcs
    have hph' : ph = WPhase.idle :=
      List.eq_of_mem_replicate (List.getElem?_mem hph)
    rw [hph'] at hcs
    simp [WPhase.inCS] at hcs
  · intro hcs
    simp [initConfig, RPhase.inCS] at hcs
  · exact Or.inl ⟨rfl, rfl⟩
  · exact fun _ => Or.inl ⟨rfl, rfl, rfl⟩
  · intro i h
    have := List.eq_of_mem_replicate (List.getElem?_mem h)
    simp at this
  · intro i ph hph hw
    have hph' : ph = WPhase.idle :=
      List.eq_of_mem_replicate (List.getElem?_mem hph)
    rw [hph'] at hw
    simp [WPhase.wrote] at hw
  · intro r hr
    rcases hr with h | h <;> simp [initConfig] at h

theorem getElem?_some_lt {α : Type _} {l : List α} {i : Nat} {a : α}
    (h : l[i]? = some a) : i < l.length := by
  rw [List.getElem?_eq_some] at h
  exact h.1

/-- The invariant is preserved by every step. -/
theorem inv_step (args : List WriterArg) (now : ℚ) (c c' : Config)
    (hstep : BStep args now c c') (hinv : BridgeInv args c) :
    BridgeInv args c' := by
  obtain ⟨wMutex, rMutex, cmdLog, pairOK, midWrite, logMem, resultOK⟩ := hinv
  cases hstep with
  | wAcquire i hidle hfree =>
    have hlt : i < c.ws.length := getElem?_some_lt hidle
    constructor
    · intro j ph hph hcs
      by_cases hj : j = i
      · subst hj
        exact rfl
      · rw [List.getElem?_set_ne (Ne.symm hj)] at hph
        have hcon := wMutex j ph hph hcs
        rw [hfree] at hcon
        exact Option.noConfusion hcon
    · intro hcs
      have hcon := rMutex hcs
      rw [hfree] at hcon
      exact Option.noConfusion hcon
    · exact cmdLog
    · intro hno
      refine pairOK ?_
      intro j
      by_cases hj : j = i
      · subst hj
        rw [hidle]
        simp
      · have := hno j
        rwa [List.getElem?_set_ne (Ne.symm hj)] at this
    · intro j hj'
      by_cases hj : j = i
      · subst hj
        rw [List.getElem?_set_self hlt] at hj'
        simp at hj'
      · rw [List.getElem?_set_ne (Ne.symm hj)] at hj'
        exact midWrite j hj'
    · intro j ph hph hw
      by_cases hj : j = i
      · subst hj
        rw [List.getElem?_set_self hlt] at hph
        injection hph with hphe
        rw [← hphe] at hw
        simp [WPhase.wrote] at hw
      · rw [List.getElem?_set_ne (Ne.symm hj)] at hph
        exact logMem j ph hph hw
    · exact resultOK
  | wWriteCmd i a hacq harg =>
    have hlt : i < c.ws.length := getElem?_some_lt hacq
    have hown : c.sh.lockOwner = some (some i) := wMutex i _ hacq rfl
    constructor
    · intro j ph hph hcs
      by_cases hj : j = i
      · subst hj
        exact hown
      · rw [List.getElem?_set_ne (Ne.symm hj)] at hph
        exact wMutex j ph hph hcs
    · intro hcs
      have hcon := rMutex hcs
      rw [hown] at hcon
      simp at hcon
    · right
      exact ⟨i, a, List.getLast?_concat _, harg, rfl⟩
    · intro hno
      exact absurd (List.getElem?_set_self hlt) (hno i)
    · intro j hj'
      by_cases hj : j = i
      · subst hj
        exact List.getLast?_concat _
      · rw [List.getElem?_set_ne (Ne.symm hj)] at hj'
        have h1 := wMutex j _ hj' rfl
        rw [hown] at h1
        simp at h1
        exact absurd h1.symm hj
    · intro j ph hph hw
      by_cases hj : j = i
      · subst hj
        exact List.mem_append.mpr (Or.inr (List.mem_singleton.mpr rfl))
      · rw [List.getElem?_set_ne (Ne.symm hj)] at hph
        exact List.mem_append.mpr (Or.inl (logMem j ph hph hw))
    · exact resultOK
  | wWriteUntil i a hwc harg =>
    have hlt : i < c.ws.length := getElem?_some_lt hwc
    have hown : c.sh.lockOwner = some (some i) := wMutex i _ hwc rfl
    have hlast : c.sh.writeLog.getLast? = some i := midWrite i hwc
    have hpair : c.sh.cmd = a.cmd := by
      rcases cmdLog with ⟨hl, _⟩ | ⟨j, b, hj, hb, hcmd⟩
      · rw [hl] at hlast
        simp at hlast
      · rw [hj] at hlast
        injection hlast with hji
        subst hji
        rw [hb] at harg
        injection harg with hba
        rw [hcmd, hba]
    constructor
    · intro j ph hph hcs
      by_cases hj : j = i
      · subst hj
        exact hown
      · rw [List.getElem?_set_ne (Ne.symm hj)] at hph
        exact wMutex j ph hph hcs
    · intro hcs
      have hcon := rMutex hcs
      rw [hown] at hcon
      simp at hcon
    · rcases cmdLog with ⟨hl, _⟩ | h
      · rw [hl] at hlast
        simp at hlast
      · exact Or.inr h
    · intro hno
      right
      exact ⟨i, a, hlast, harg, hpair, rfl⟩
    · intro j hj'
      by_cases hj : j = i
      · subst hj
        rw [List.getElem?_set_self hlt] at hj'
        simp at hj'
      · rw [List.getElem?_set_ne (Ne.symm hj)] at hj'
        have h1 := wMutex j _ hj' rfl
        rw [hown] at h1
        simp at h1
        exact absurd h1.symm hj
    · intro j ph hph hw
      by_cases hj : j = i
      · subst hj
        exact logMem _ _ hwc rfl
      · rw [List.getElem?_set_ne (Ne.symm hj)] at hph
        exact logMem j ph hph hw
    · exact resultOK
  | wRelease i hwu =>
    have hlt : i < c.ws.length := getElem?_some_lt hwu
    have hown : c.sh.lockOwner = some (some i) := wMutex i _ hwu rfl
    have hnoOther : ∀ (j : Nat) (ph : WPhase), c.ws[j]? = some ph →
        ph.inCS = true → j = i := by
      intro j ph hph hcs
      have h1 := wMutex j ph hph hcs
      rw [hown] at h1
      simp at h1
      exact h1.symm
    constructor
    · intro j ph hph hcs
      by_cases hj : j = i
      · subst hj
        rw [List.getElem?_set_self hlt] at hph
        injection hph with hphe
        rw [← hphe] at hcs
        simp [WPhase.inCS] at hcs
      · rw [List.getElem?_set_ne (Ne.symm hj)] at hph
        exact absurd (hnoOther j ph hph hcs) hj
    · intro hcs
      have hcon := rMutex hcs
      rw [hown] at hcon
      simp at hcon
    · exact cmdLog
    · intro hno
      refine pairOK ?_
      intro j hcon
      have hji : j = i := hnoOther j _ hcon rfl
      subst hji
      rw [hwu] at hcon
      simp at hcon
    · intro j hj'
      by_cases hj : j = i
      · subst hj
        rw [List.getElem?_set_self hlt] at hj'
        simp at hj'
      · rw [List.getElem?_set_ne (Ne.symm hj)] at hj'
        exact midWrite j hj'
    · intro j ph hph hw
      by_cases hj : j = i
      · subst hj
        exact logMem _ _ hwu rfl
      · rw [List.getElem?_set_ne (Ne.symm hj)] at hph
        exact logMem j ph hph hw
    · exact resultOK
  | rAcquire hidle hfree =>
    constructor
    · intro j ph hph hcs
      have hcon := wMutex j ph hph hcs
      rw [hfree] at hcon
      exact Option.noConfusion hcon
    · intro _
      rfl
    · exact cmdLog
    · exact pairOK
    · exact midWrite
    · exact logMem
    · intro r hr
      rcases hr with h | h <;> simp at h
  | rLoadUntil hacq =>
    have hown : c.sh.lockOwner = some none := rMutex (by rw [hacq]; rfl)
    constructor
    · exact wMutex
    · intro _
      exact hown
    · exact cmdLog
    · exact pairOK
    · exact midWrite
    · exact logMem
    · intro r hr
      rcases hr with h | h <;> simp at h
  | rLoadCmd u hgot =>
    have hown : c.sh.lockOwner = some none := rMutex (by rw [hgot]; rfl)
    constructor
    · exact wMutex
    · intro _
      exact hown
    · exact cmdLog
    · exact pairOK
    · exact midWrite
    · exact logMem
    · intro r hr
      rcases hr with h | h
      · injection h with hre
        by_cases hu : u < now
        · rw [if_pos hu] at hre
          exact Or.inl hre.symm
        · rw [if_neg hu] at hre
          rcases cmdLog with ⟨_, hcmd⟩ | ⟨i, a, _, ha, hcmd⟩
          · exact Or.inl (by rw [← hre, hcmd])
          · exact Or.inr ⟨i, a, ha, by rw [← hre, hcmd]⟩
      · simp at h
  | rRelease r hres =>
    have hown : c.sh.lockOwner = some none := rMutex (by rw [hres]; rfl)
    constructor
    · intro j ph hph hcs
      have h1 := wMutex j ph hph hcs
      rw [hown] at h1
      simp at h1
    · intro hcs
      simp [RPhase.inCS] at hcs
    · exact cmdLog
    · exact pairOK
    · exact midWrite
    · exact logMem
    · intro r' hr'
      rcases hr' with h | h
      · simp at h
      · injection h with hre
        subst hre
        exact resultOK r (Or.inl hres)

/-- Every reachable configuration satisfies the invariant. -/
theorem reach_inv (args : List WriterArg) (now : ℚ) (c : Config)
    (h : Reach args now c) : BridgeInv args c := by
  induction h with
  | refl => exact initInv args
  | tail _ hstep ih => exact inv_step args now _ _ hstep ih

/-- Concrete writer arguments for the C9 witness: two writers. -/
def c9WitnessArgs : List WriterArg := [⟨1, 2, 3, 10⟩, ⟨4, 5, 6, 20⟩]

end SpotNav

namespace SpotNav

/-- **C9.** Under any interleaving of any number of concurrent
`set_base_command` writers with a `get_base_command` reader (each
shared-memory instruction an atomic step, the lock explicit):
(a) no torn tuple — any result the reader completes with is either
`(0,0,0)` or exactly the `(vx, vy, yaw_rate)` tuple of a single writer,
never a mix of components of different writes; (b) last write wins — once
no writer is inside its critical section, the stored command/expiry pair
is the initial one or exactly the pair of the single most recent write
(the last entry of the ghost write order), with no merging or queueing;
(c) every writer that performed its write is recorded in the write order,
so after all writers complete the surviving pair is the most recent of
their writes. -/
theorem c9_last_write_wins_no_tearing (args : List WriterArg) (now : ℚ)
    (c : Config) (hreach : Reach args now c) :
    (∀ r : ℚ × ℚ × ℚ, c.rd = .finished r →
      r = (0, 0, 0) ∨
        ∃ (i : Nat) (a : WriterArg), args[i]? = some a ∧ r = a.cmd) ∧
    ((∀ (i : Nat) (ph : WPhase), c.ws[i]? = some ph → ph.inCS = false) →
      ((c.sh.writeLog = [] ∧ c.sh.cmd = (0, 0, 0) ∧ c.sh.untilT = 0) ∨
       (∃ (i : Nat) (a : WriterArg), c.sh.writeLog.getLast? = some i ∧
          args[i]? = some a ∧ c.sh.cmd = a.cmd ∧ c.sh.untilT = a.untilT))) ∧
    (∀ i : Nat, c.ws[i]? = some WPhase.finished → i ∈ c.sh.writeLog) := by
  have hinv := reach_inv args now c hreach
  refine ⟨?_, ?_, ?_⟩
  · intro r hr
    exact hinv.resultOK r (Or.inr hr)
  · intro hno
    refine hinv.pairOK ?_
    intro i hcon
    have := hno i _ hcon
    simp [WPhase.inCS] at this
  · intro i hf
    exact hinv.logMem i _ hf rfl

/-- Witness for C9: a concrete interleaving — writer 0 runs its whole
critical section, then writer 1, then the reader (at `now = 0`).  The
reader's completed result `(4,5,6)` is exactly writer 1's tuple, and the
final stored pair `((4,5,6), 20)` is exactly the pair of the most recent
write, writer 1 (the last entry of the write order `[0, 1]`). -/
theorem c9_last_write_wins_no_tearing_witness :
    (((4 : ℚ), (5 : ℚ), (6 : ℚ)) = ((0 : ℚ), (0 : ℚ), (0 : ℚ)) ∨
      ∃ (i : Nat) (a : WriterArg), c9WitnessArgs[i]? = some a ∧
        ((4 : ℚ), (5 : ℚ), (6 : ℚ)) = a.cmd) ∧
    ((([0, 1] : List Nat) = [] ∧
        ((4 : ℚ), (5 : ℚ), (6 : ℚ)) = ((0 : ℚ), (0 : ℚ), (0 : ℚ)) ∧
        (20 : ℚ) = 0) ∨
      (∃ (i : Nat) (a : WriterArg), ([0, 1] : List Nat).getLast? = some i ∧
        c9WitnessArgs[i]? = some a ∧
        ((4 : ℚ), (5 : ℚ), (6 : ℚ)) = a.cmd ∧ (20 : ℚ) = a.untilT)) := by
  have hreach : Reach c9WitnessArgs 0
      ⟨⟨none, (4, 5, 6), 20, [0, 1]⟩,
        [WPhase.finished, WPhase.finished], RPhase.finished (4, 5, 6)⟩ := by
    have s0 : Reach c9WitnessArgs 0 (initConfig 2) := Relation.ReflTransGen.refl
    have s1 := Relation.ReflTransGen.tail s0 (BStep.wAcquire _ 0 rfl rfl)
    have s2 := Relation.ReflTransGen.tail s1
      (BStep.wWriteCmd _ 0 ⟨1, 2, 3, 10⟩ rfl rfl)
    have s3 := Relation.ReflTransGen.tail s2
      (BStep.wWriteUntil _ 0 ⟨1, 2, 3, 10⟩ rfl rfl)
    have s4 := Relation.ReflTransGen.tail s3 (BStep.wRelease _ 0 rfl)
    have s5 := Relation.ReflTransGen.tail s4 (BStep.wAcquire _ 1 rfl rfl)
    have s6 := Relation.ReflTransGen.tail s5
      (BStep.wWriteCmd _ 1 ⟨4, 5, 6, 20⟩ rfl rfl)
    have s7 := Relation.ReflTransGen.tail s6
      (BStep.wWriteUntil _ 1 ⟨4, 5, 6, 20⟩ rfl rfl)
    have s8 := Relation.ReflTransGen.tail s7 (BStep.wRelease _ 1 rfl)
    have s9 := Relation.ReflTransGen.tail s8 (BStep.rAcquire _ rfl rfl)
    have s10 := Relation.ReflTransGen.tail s9 (BStep.rLoadUntil _ rfl)
    have s11 := Relation.ReflTransGen.tail s10 (BStep.rLoadCmd _ 20 rfl)
    have s12 := Relation.ReflTransGen.tail s11
      (BStep.rRelease _ (4, 5, 6) (by norm_num [WriterArg.cmd]))
    exact s12
  have h := c9_last_write_wins_no_tearing c9WitnessArgs 0 _ hreach
  refine ⟨h.1 (4, 5, 6) rfl, h.2.1 ?_⟩
  intro i ph hph
  have hm : ph ∈ List.replicate 2 WPhase.finished := List.getElem?_mem hph
  rw [List.eq_of_mem_replicate hm]
  rfl

end SpotNav

namespace SpotNav

/-- **C1.** `get_base_command` returns `(0,0,0)` whenever `now` is strictly
past the stored expiry, regardless of the stored tuple; otherwise it
returns the stored `(vx, vy, yaw_rate)`.  Expiry is decided lazily from
`(now, commandUntil)` at read time — `getBaseCommand` is a pure function of
the state and performs no state change, so no background timer exists in
the model just as none exists in the code. -/
theorem c1_get_command_lazy_expiry (now : ℚ) (b : SimBridge) :
    (b.commandUntil < now → getBaseCommand now b = (0, 0, 0)) ∧
    (¬ b.commandUntil < now → getBaseCommand now b = b.baseCommand) := by
  constructor <;> intro h <;> simp [getBaseCommand, h]

/-- Witness for C1: a concrete expired read (stored non-zero tuple, read
strictly after expiry) and a concrete live read. -/
theorem c1_get_command_lazy_expiry_witness :
    getBaseCommand 5 ⟨(1, 2, 3), 4⟩ = (0, 0, 0) ∧
    getBaseCommand 3 ⟨(1, 2, 3), 4⟩ = (1, 2, 3) := by
  exact ⟨(c1_get_command_lazy_expiry 5 ⟨(1, 2, 3), 4⟩).1 (by norm_num),
         (c1_get_command_lazy_expiry 3 ⟨(1, 2, 3), 4⟩).2 (by norm_num)⟩

/-- **C2.** A negative duration is clamped to `max(0, d) = 0`, so
`expires_at = now`: the command is already expired on arrival and every
strictly later `get_base_command` returns `(0,0,0)`. -/
theorem c2_negative_duration_clamps (now vx vy yawRate d : ℚ) (b : SimBridge)
    (hd : d < 0) :
    (setBaseCommand now b vx vy yawRate d).commandUntil = now ∧
    ∀ t : ℚ, now < t →
      getBaseCommand t (setBaseCommand now b vx vy yawRate d) = (0, 0, 0) := by
  have hmax : max (0 : ℚ) d = 0 := max_eq_left hd.le
  constructor
  · simp [setBaseCommand, hmax]
  · intro t ht
    simp [setBaseCommand, getBaseCommand, hmax, ht]

/-- Witness for C2: duration `-1` at `now = 10` yields expiry `10`, and a
read at `t = 11` returns the zero command. -/
theorem c2_negative_duration_clamps_witness :
    (setBaseCommand 10 ⟨(0, 0, 0), 0⟩ 1 2 3 (-1)).commandUntil = 10 ∧
    getBaseCommand 11 (setBaseCommand 10 ⟨(0, 0, 0), 0⟩ 1 2 3 (-1)) = (0, 0, 0) := by
  have h := c2_negative_duration_clamps 10 1 2 3 (-1) ⟨(0, 0, 0), 0⟩ (by norm_num)
  exact ⟨h.1, h.2 11 (by norm_num)⟩

/-- **C6 counterexample.** The claim says mutating the snapshot returned
by `get_state` — including its nested structures — never changes the
snapshot stored in the bridge.  The copy is shallow (`dict(x)`), so the
nested dict objects are shared.  Concretely: the heap holds the pose dict
`{"position": 1}` at address 0 and the bridge's stored snapshot
`{"spot": ref 0}` at address 1.  `get_state` returns a fresh object
(address 2) whose `"spot"` entry is the same `ref 0`; assigning
`copy["spot"]["position"] = 99` (an in-place write at address 0, reached
through the returned copy) makes the bridge's stored snapshot read
`"spot" -> "position" = 99` instead of `1`. -/
theorem c6_counterexample :
    (getState [(0, [("position", PyVal.num 1)]), (1, [("spot", PyVal.ref 0)])]
      ⟨1⟩).2 = 2 ∧
    (2 : Nat) ≠ (BridgeStateRef.mk 1).lastState ∧
    dictLookup
      (heapGet
        (getState [(0, [("position", PyVal.num 1)]),
          (1, [("spot", PyVal.ref 0)])] ⟨1⟩).1 2)
      "spot" = some (PyVal.ref 0) ∧
    readNested
      (getState [(0, [("position", PyVal.num 1)]),
        (1, [("spot", PyVal.ref 0)])] ⟨1⟩).1
      1 "spot" "position" = some (PyVal.num 1) ∧
    readNested
      (setKey
        (getState [(0, [("position", PyVal.num 1)]),
          (1, [("spot", PyVal.ref 0)])] ⟨1⟩).1
        0 "position" (PyVal.num 99))
      1 "spot" "position" = some (PyVal.num 99) := by
  decide

/-- **C6 (amended).** `get_state` returns a defensive *shallow* copy: a
fresh top-level dict object (never the live `_last_state` object) holding
exactly the stored snapshot's entries.  Mutating a top-level key of the
returned copy never changes the snapshot stored in the bridge; but the
entries — including the references to the nested pose, active-command and
sensor-summary dicts — are shared with the stored snapshot, so in-place
mutation of those nested objects through the copy is visible through the
bridge (see the counterexample). -/
theorem c6_shallow_copy (h : Heap) (br : BridgeStateRef)
    (hmem : br.lastState ∈ h.map Prod.fst) :
    (getState h br).2 ≠ br.lastState ∧
    heapGet (getState h br).1 (getState h br).2 = heapGet h br.lastState ∧
    ∀ (k : String) (v : PyVal),
      heapGet (setKey (getState h br).1 (getState h br).2 k v) br.lastState =
        heapGet h br.lastState := by
  have hne : br.lastState ≠ freshAddr h := freshAddr_not_mem h _ hmem
  refine ⟨?_, ?_, ?_⟩
  · rw [getState_spec]
    exact Ne.symm hne
  · rw [getState_spec]
    exact heapGet_heapSet_self h (freshAddr h) (heapGet h br.lastState)
  · intro k v
    unfold setKey
    rw [getState_spec]
    rw [heapGet_heapSet_ne _ _ _ _ (Ne.symm hne),
        heapGet_heapSet_ne _ _ _ _ (Ne.symm hne)]

/-- Witness for C6 (amended): on the counterexample's concrete heap, the
returned copy lives at the fresh address 2 ≠ 1, holds the same pairs as
the stored snapshot, and top-level assignment through the copy leaves the
stored snapshot's object unchanged. -/
theorem c6_shallow_copy_witness :
    (getState [(0, [("position", PyVal.num 1)]), (1, [("spot", PyVal.ref 0)])]
      ⟨1⟩).2 ≠ (BridgeStateRef.mk 1).lastState ∧
    heapGet
      (setKey
        (getState [(0, [("position", PyVal.num 1)]),
          (1, [("spot", PyVal.ref 0)])] ⟨1⟩).1
        (getState [(0, [("position", PyVal.num 1)]),
          (1, [("spot", PyVal.ref 0)])] ⟨1⟩).2
        "spot" (PyVal.num 0))
      (BridgeStateRef.mk 1).lastState =
      heapGet [(0, [("position", PyVal.num 1)]), (1, [("spot", PyVal.ref 0)])]
        (BridgeStateRef.mk 1).lastState := by
  have h := c6_shallow_copy
    [(0, [("position", PyVal.num 1)]), (1, [("spot", PyVal.ref 0)])] ⟨1⟩
    (by decide)
  exact ⟨h.1, h.2.2 "spot" (PyVal.num 0)⟩

/-- **C7.** `direction_to_command` is a pure, case-insensitive map over the
fixed synonym table: each listed token (in any letter case, with
surrounding whitespace stripped) yields the listed vector, and every token
outside the table fails with the `InvalidDirection` error. -/
theorem c7_direction_table (speed yawRate : ℚ) :
    (∀ s : String, (pyLower (pyStrip s) = "forward" ∨ pyLower (pyStrip s) = "fwd" ∨
        pyLower (pyStrip s) = "front") →
      directionToCommand s speed yawRate = .ok (speed, 0, 0)) ∧
    (∀ s : String, (pyLower (pyStrip s) = "back" ∨ pyLower (pyStrip s) = "backward" ∨
        pyLower (pyStrip s) = "reverse") →
      directionToCommand s speed yawRate = .ok (-speed, 0, 0)) ∧
    (∀ s : String, (pyLower (pyStrip s) = "left" ∨ pyLower (pyStrip s) = "strafe_left") →
      directionToCommand s speed yawRate = .ok (0, speed, 0)) ∧
    (∀ s : String, (pyLower (pyStrip s) = "right" ∨ pyLower (pyStrip s) = "strafe_right") →
      directionToCommand s speed yawRate = .ok (0, -speed, 0)) ∧
    (∀ s : String, (pyLower (pyStrip s) = "turn_left" ∨ pyLower (pyStrip s) = "yaw_left" ∨
        pyLower (pyStrip s) = "rotate_left") →
      directionToCommand s speed yawRate = .ok (0, 0, yawRate)) ∧
    (∀ s : String, (pyLower (pyStrip s) = "turn_right" ∨ pyLower (pyStrip s) = "yaw_right" ∨
        pyLower (pyStrip s) = "rotate_right") →
      directionToCommand s speed yawRate = .ok (0, 0, -yawRate)) ∧
    (∀ s : String, (pyLower (pyStrip s) = "stop" ∨ pyLower (pyStrip s) = "halt") →
      directionToCommand s speed yawRate = .ok (0, 0, 0)) ∧
    (∀ s : String, pyLower (pyStrip s) ∉ knownDirectionTokens →
      directionToCommand s speed yawRate = .error invalidDirectionMsg) := by
  refine ⟨?_, ?_, ?_, ?_, ?_, ?_, ?_, ?_⟩
  · intro s h
    unfold directionToCommand
    rcases h with h | h | h <;> simp [h]
  · intro s h
    unfold directionToCommand
    rcases h with h | h | h <;> simp [h]
  · intro s h
    unfold directionToCommand
    rcases h with h | h <;> simp [h]
  · intro s h
    unfold directionToCommand
    rcases h with h | h <;> simp [h]
  · intro s h
    unfold directionToCommand
    rcases h with h | h | h <;> simp [h]
  · intro s h
    unfold directionToCommand
    rcases h with h | h | h <;> simp [h]
  · intro s h
    unfold directionToCommand
    rcases h with h | h <;> simp [h]
  · intro s h
    simp only [knownDirectionTokens, List.mem_cons, List.not_mem_nil, or_false,
      not_or] at h
    obtain ⟨h1, h2, h3, h4, h5, h6, h7, h8, h9, h10, h11, h12, h13, h14, h15,
      h16, h17, h18⟩ := h
    unfold directionToCommand
    simp [h1, h2, h3, h4, h5, h6, h7, h8, h9, h10, h11, h12, h13, h14, h15,
      h16, h17, h18]

/-- Witness for C7, matching the spec's own examples:
`direction_to_command("turn_left", 1.0, 0.8) = (0,0,0.8)`,
`direction_to_command("right", 1.0, 0.8) = (0,-1.0,0)`, case-insensitivity
on `"Forward"`, and `"diagonal"` failing with `InvalidDirection`. -/
theorem c7_direction_table_witness :
    directionToCommand "turn_left" 1 (8 / 10) = .ok (0, 0, 8 / 10) ∧
    directionToCommand "right" 1 (8 / 10) = .ok (0, -1, 0) ∧
    directionToCommand "Forward" 1 (8 / 10) = .ok (1, 0, 0) ∧
    directionToCommand "diagonal" 1 (8 / 10) = .error invalidDirectionMsg := by
  have h := c7_direction_table 1 (8 / 10)
  exact ⟨h.2.2.2.2.1 "turn_left" (by decide),
         h.2.2.2.1 "right" (by decide),
         h.1 "Forward" (by decide),
         h.2.2.2.2.2.2.2 "diagonal" (by decide)⟩

/-- **C3.** A BLOCKED first line increments `consecutive_blocked` and
escalates: counts 1 and 2 issue `turn_left`, counts 3 and 4 issue
`turn_right`, and count ≥ 5 issues the `stop` tool and `break`s out of the
loop (terminal, not an error).  Concretely, with response
`"BLOCKED\nwall ahead"` every iteration and `consecutive_blocked = 0`
initially, the loop (`max_steps = 100`) issues, in exact order,
turn_left, turn_left, turn_right, turn_right, stop, and terminates after
the 5th iteration with `consecutive_blocked = 5`. -/
theorem c3_blocked_escalation :
    (∀ (st : NavState) (resp : String),
      strContainsSub (primaryCommand (pyUpper resp)) "FORWARD" = false →
      strContainsSub (primaryCommand (pyUpper resp)) "SLOW" = false →
      strContainsSub (primaryCommand (pyUpper resp)) "OBSTACLE_LEFT" = false →
      strContainsSub (primaryCommand (pyUpper resp)) "OBSTACLE_RIGHT" = false →
      strContainsSub (primaryCommand (pyUpper resp)) "BLOCKED" = true →
      (navIter st (.ok resp)).1.consecutiveStops = st.consecutiveStops + 1 ∧
      (st.consecutiveStops + 1 ≤ 2 →
        (navIter st (.ok resp)).2 = ([.move "turn_left" 1 1], false)) ∧
      (3 ≤ st.consecutiveStops + 1 → st.consecutiveStops + 1 ≤ 4 →
        (navIter st (.ok resp)).2 = ([.move "turn_right" 1 1], false)) ∧
      (5 ≤ st.consecutiveStops + 1 →
        (navIter st (.ok resp)).2 = ([.stop], true))) ∧
    navigateRobot 100 (fun _ => .ok "BLOCKED\nwall ahead") =
      (⟨5, 5, 0⟩, [.move "turn_left" 1 1, .move "turn_left" 1 1,
        .move "turn_right" 1 1, .move "turn_right" 1 1, .stop]) := by
  constructor
  · intro st resp h1 h2 h3 h4 h5
    have e : navIter st (.ok resp) =
        (if st.consecutiveStops + 1 ≤ 2 then
          ({ st with step := st.step + 1,
                     consecutiveStops := st.consecutiveStops + 1 },
           [.move "turn_left" 1 1], false)
        else if st.consecutiveStops + 1 ≤ 4 then
          ({ st with step := st.step + 1,
                     consecutiveStops := st.consecutiveStops + 1 },
           [.move "turn_right" 1 1], false)
        else
          ({ st with step := st.step + 1,
                     consecutiveStops := st.consecutiveStops + 1 },
           [.stop], true)) := by
      simp [navIter, h1, h2, h3, h4, h5]
    rw [e]
    refine ⟨?_, ?_, ?_, ?_⟩
    · split_ifs <;> rfl
    · intro hc
      rw [if_pos hc]
    · intro hc3 hc4
      rw [if_neg (by omega), if_pos hc4]
    · intro hc5
      rw [if_neg (by omega), if_neg (by omega)]
  · decide

/-- Witness for C3: the first BLOCKED iteration from a fresh state
increments the count to 1 and issues `turn_left` without breaking. -/
theorem c3_blocked_escalation_witness :
    (navIter ⟨0, 0, 0⟩ (.ok "BLOCKED\nwall ahead")).1.consecutiveStops = 0 + 1 ∧
    (navIter ⟨0, 0, 0⟩ (.ok "BLOCKED\nwall ahead")).2 =
      ([.move "turn_left" 1 1], false) := by
  have h := c3_blocked_escalation.1 ⟨0, 0, 0⟩ "BLOCKED\nwall ahead"
    (by decide) (by decide) (by decide) (by decide) (by decide)
  exact ⟨h.1, h.2.1 (by norm_num)⟩

/-- **C4 counterexample.** The claim says a failed iteration (camera
unavailable / vision failure) "does not count toward the configured
maximum number of steps".  But `step += 1` runs at the top of the loop
body, before any collaborator call, and `continue` does not undo it: a
single camera failure advances `step` from 0 to 1, and alone exhausts a
`max_steps = 1` budget (the loop then exits having issued nothing). -/
theorem c4_counterexample :
    (navIter ⟨0, 0, 0⟩ .camFail).1.step = 1 ∧
    (navIter ⟨0, 0, 0⟩ .visionFail).1.step = 1 ∧
    navigateRobot 1 (fun _ => .camFail) = (⟨1, 0, 0⟩, []) := by
  decide

/-- **C4 (amended).** A failed iteration (camera frame unavailable or the
classification call failing / returning non-success) backs off and retries
without issuing any tool call and without touching `consecutive_blocked`
or the accumulated distance — but it does advance the step counter, so it
does count toward the configured maximum number of steps. -/
theorem c4_failed_iteration_consumes_step (st : NavState) :
    navIter st .camFail = ({ st with step := st.step + 1 }, [], false) ∧
    navIter st .visionFail = ({ st with step := st.step + 1 }, [], false) :=
  ⟨rfl, rfl⟩

/-- **C5 counterexample.** The claim says that whenever the loop
terminates the robot is stopped.  On the `step_count = max_steps` path no
`stop` tool call is ever issued: with `max_steps = 1` and a clear FORWARD
view, the loop terminates after its single step with only a move command
in the trace and no `stop`. -/
theorem c5_counterexample :
    (navigateRobot 1 (fun _ => .ok "FORWARD")).1.step = 1 ∧
    ToolCall.stop ∉ (navigateRobot 1 (fun _ => .ok "FORWARD")).2 := by
  decide

/-- **C5 (amended).** The loop terminates only by `step_count` reaching
the configured maximum or by the BLOCKED escalation reaching the STOPPED
state; in the STOPPED case the robot is stopped (`stop` is the final tool
call issued), while on the max-steps path no `stop` is issued; in both
cases the step count and the total forward distance moved are the values
printed on exit. -/
theorem c5_termination_behaviour (maxSteps : Nat) (env : Nat → IterInput) :
    (((navigateRobot maxSteps env).1.step = maxSteps ∧
        ToolCall.stop ∉ (navigateRobot maxSteps env).2) ∨
      ((navigateRobot maxSteps env).2.getLast? = some .stop ∧
        5 ≤ (navigateRobot maxSteps env).1.consecutiveStops)) ∧
    finalReport (navigateRobot maxSteps env).1 =
      ((navigateRobot maxSteps env).1.step,
       (navigateRobot maxSteps env).1.distanceMoved) := by
  constructor
  · have h := navLoop_paths env maxSteps ⟨0, 0, 0⟩
    simpa [navigateRobot] using h
  · rfl

/-- **C8.** The decision token is the uppercased first line of the
response, matched (substring-wise, as Python `in`) in fixed priority order
FORWARD, SLOW, OBSTACLE_LEFT, OBSTACLE_RIGHT; the policy table maps
FORWARD to (forward, speed 1.0, duration 2.0), SLOW to (forward, 1.0,
1.0), OBSTACLE_LEFT to (left, 1.0, 1.0), OBSTACLE_RIGHT to (right, 1.0,
1.0); when none of the five tokens matches, the fallback is a cautious
forward (forward, 1.0, 1.0); each of these non-BLOCKED decisions resets
`consecutive_blocked` to 0. -/
theorem c8_decision_policy :
    (∀ (st : NavState) (resp : String),
      strContainsSub (primaryCommand (pyUpper resp)) "FORWARD" = true →
      navIter st (.ok resp) =
        ({ st with step := st.step + 1, consecutiveStops := 0,
                   distanceMoved := st.distanceMoved + 2 * 1 },
         [.move "forward" 1 2], false)) ∧
    (∀ (st : NavState) (resp : String),
      strContainsSub (primaryCommand (pyUpper resp)) "FORWARD" = false →
      strContainsSub (primaryCommand (pyUpper resp)) "SLOW" = true →
      navIter st (.ok resp) =
        ({ st with step := st.step + 1, consecutiveStops := 0,
                   distanceMoved := st.distanceMoved + 1 * 1 },
         [.move "forward" 1 1], false)) ∧
    (∀ (st : NavState) (resp : String),
      strContainsSub (primaryCommand (pyUpper resp)) "FORWARD" = false →
      strContainsSub (primaryCommand (pyUpper resp)) "SLOW" = false →
      strContainsSub (primaryCommand (pyUpper resp)) "OBSTACLE_LEFT" = true →
      navIter st (.ok resp) =
        ({ st with step := st.step + 1, consecutiveStops := 0 },
         [.move "left" 1 1], false)) ∧
    (∀ (st : NavState) (resp : String),
      strContainsSub (primaryCommand (pyUpper resp)) "FORWARD" = false →
      strContainsSub (primaryCommand (pyUpper resp)) "SLOW" = false →
      strContainsSub (primaryCommand (pyUpper resp)) "OBSTACLE_LEFT" = false →
      strContainsSub (primaryCommand (pyUpper resp)) "OBSTACLE_RIGHT" = true →
      navIter st (.ok resp) =
        ({ st with step := st.step + 1, consecutiveStops := 0 },
         [.move "right" 1 1], false)) ∧
    (∀ (st : NavState) (resp : String),
      strContainsSub (primaryCommand (pyUpper resp)) "FORWARD" = false →
      strContainsSub (primaryCommand (pyUpper resp)) "SLOW" = false →
      strContainsSub (primaryCommand (pyUpper resp)) "OBSTACLE_LEFT" = false →
      strContainsSub (primaryCommand (pyUpper resp)) "OBSTACLE_RIGHT" = false →
      strContainsSub (primaryCommand (pyUpper resp)) "BLOCKED" = false →
      navIter st (.ok resp) =
        ({ st with step := st.step + 1, consecutiveStops := 0,
                   distanceMoved := st.distanceMoved + 1 * 1 },
         [.move "forward" 1 1], false)) := by
  refine ⟨?_, ?_, ?_, ?_, ?_⟩
  · intro st resp h1
    simp [navIter, h1]
  · intro st resp h1 h2
    simp [navIter, h1, h2]
  · intro st resp h1 h2 h3
    simp [navIter, h1, h2, h3]
  · intro st resp h1 h2 h3 h4
    simp [navIter, h1, h2, h3, h4]
  · intro st resp h1 h2 h3 h4 h5
    simp [navIter, h1, h2, h3, h4, h5]

/-- Witness for C8: one concrete response per decision branch (incl. the
spec's own "FORWARD: clear path" scenario, which adds exactly
`2.0 * 1.0` to the distance) and one fallback response matching no rule. -/
theorem c8_decision_policy_witness :
    navIter ⟨0, 0, 0⟩ (.ok "FORWARD: clear path") =
      (⟨0 + 1, 0, 0 + 2 * 1⟩, [.move "forward" 1 2], false) ∧
    navIter ⟨0, 0, 0⟩ (.ok "SLOW: uneven ground") =
      (⟨0 + 1, 0, 0 + 1 * 1⟩, [.move "forward" 1 1], false) ∧
    navIter ⟨0, 0, 0⟩ (.ok "OBSTACLE_LEFT") =
      (⟨0 + 1, 0, 0⟩, [.move "left" 1 1], false) ∧
    navIter ⟨0, 0, 0⟩ (.ok "OBSTACLE_RIGHT") =
      (⟨0 + 1, 0, 0⟩, [.move "right" 1 1], false) ∧
    navIter ⟨3, 3, 0⟩ (.ok "no idea what this is") =
      (⟨3 + 1, 0, 0 + 1 * 1⟩, [.move "forward" 1 1], false) := by
  refine ⟨?_, ?_, ?_, ?_, ?_⟩
  · exact c8_decision_policy.1 ⟨0, 0, 0⟩ "FORWARD: clear path" (by decide)
  · exact c8_decision_policy.2.1 ⟨0, 0, 0⟩ "SLOW: uneven ground"
      (by decide) (by decide)
  · exact c8_decision_policy.2.2.1 ⟨0, 0, 0⟩ "OBSTACLE_LEFT"
      (by decide) (by decide) (by decide)
  · exact c8_decision_policy.2.2.2.1 ⟨0, 0, 0⟩ "OBSTACLE_RIGHT"
      (by decide) (by decide) (by decide) (by decide)
  · exact c8_decision_policy.2.2.2.2 ⟨3, 3, 0⟩ "no idea what this is"
      (by decide) (by decide) (by decide) (by decide) (by decide)

/-- **C10.** For any valid direction, `giveMoveCommand` reports back
`duration_s = float(length)` unclamped — a negative `length` is echoed as a
negative `duration_s` — while the bridge stores the command with the
effective duration clamped to `max(0, length)`. -/
theorem c10_applied_duration_unclamped (now : ℚ) (b : SimBridge)
    (direction : String) (length speed yawRate : ℚ)
    (applied : MoveApplied) (b' : SimBridge)
    (h : giveMoveCommand now b direction length speed yawRate = .ok (applied, b')) :
    applied.durationS = length ∧ b'.commandUntil = now + max 0 length := by
  unfold giveMoveCommand at h
  cases hd : directionToCommand direction speed yawRate with
  | error e => rw [hd] at h; exact absurd h (by simp)
  | ok v =>
      obtain ⟨vx, vy, wz⟩ := v
      rw [hd] at h
      simp only [Except.ok.injEq, Prod.mk.injEq] at h
      obtain ⟨ha, hb⟩ := h
      constructor
      · rw [← ha]
      · rw [← hb]; simp [setBaseCommand]

/-- Witness for C10: `giveMoveCommand` with direction `"forward"` and
`length = -1` reports `duration_s = -1` while the stored expiry is
`now + 0 = 7`. -/
theorem c10_applied_duration_unclamped_witness :
    (giveMoveCommand 7 ⟨(0, 0, 0), 0⟩ "forward" (-1) 1 (8 / 10) =
      .ok (⟨1, 0, 0, -1⟩, ⟨(1, 0, 0), 7⟩)) ∧
    (-1 : ℚ) = -1 ∧ (7 : ℚ) = 7 + max 0 (-1) := by
  have hok : giveMoveCommand 7 ⟨(0, 0, 0), 0⟩ "forward" (-1) 1 (8 / 10) =
      .ok (⟨1, 0, 0, -1⟩, ⟨(1, 0, 0), 7⟩) := by
    have hd : directionToCommand "forward" 1 (8 / 10) = .ok (1, 0, 0) := by
      decide
    unfold giveMoveCommand
    rw [hd]
    have hmax : max (0 : ℚ) (-1) = 0 := by norm_num
    simp [setBaseCommand, hmax]
  have h := c10_applied_duration_unclamped 7 ⟨(0, 0, 0), 0⟩ "forward" (-1) 1
    (8 / 10) ⟨1, 0, 0, -1⟩ ⟨(1, 0, 0), 7⟩ hok
  exact ⟨hok, h.1, h.2⟩

end SpotNav
